import Mathlib

/-!
Verification of the TravelPlanner edge function (generate-travel-plan).

The embedding below translates the Deno/TypeScript source into Lean:
JS strings become lists of characters (`Str`), the balanced-brace JSON
scanner becomes an explicit state machine over characters, the airport
resolver becomes a pure function parameterised by the (possibly failed)
upstream model lookup, and the flight aggregator becomes a pure function
parameterised by the per-destination provider outcome.  Fallible
operations return `Option`.
-/

namespace TravelPlanner

/-- A JS string, embedded as its list of characters. -/
abbrev Str := List Char

/-! ### JSON-candidate extractor (extractFirstJsonObject, source lines 44-70)

The source scans from the first brace of the text, tracking brace depth,
double-quoted-string mode and escape state, and returns the slice from the
first brace up to the character at which depth first returns to zero. -/

/-- State of the balanced-brace scanner: current depth, whether the scan sits
inside a double-quoted string, and whether the previous character was an
unescaped backslash. -/
structure ScanState where
  depth : Int
  inString : Bool
  escaped : Bool
  deriving DecidableEq, Repr

/-- Initial scanner state (depth 0, not in a string, not escaped). -/
def initScan : ScanState := ⟨0, false, false⟩

/-- One character of the loop body at source lines 51-63: a non-escaped
double quote toggles string mode; outside a string a brace changes the
depth; a backslash that is not itself escaped sets the escape flag. -/
def scanStep (st : ScanState) (c : Char) : ScanState :=
  let inString := if c == '"' && !st.escaped then !st.inString else st.inString
  let depth :=
    if !inString then
      if c == '{' then st.depth + 1
      else if c == '}' then st.depth - 1
      else st.depth
    else st.depth
  let escaped := c == '\\' && !st.escaped
  ⟨depth, inString, escaped⟩

/-- The scanning loop from the first brace onwards: consume characters,
returning the consumed slice as soon as the depth reaches zero after a
character, and the no-candidate value if the text ends first. -/
def scanFrom (st : ScanState) : Str → Option Str
  | [] => none
  | c :: rest =>
    let st' := scanStep st c
    if st'.depth = 0 then some [c]
    else
      match scanFrom st' rest with
      | some tl => some (c :: tl)
      | none => none

/-- extractFirstJsonObject (source lines 44-70): locate the first brace
(text.indexOf) and run the scanning loop from there; with no brace at all
the result is the no-candidate value. -/
def extractFirstJsonObject (text : Str) : Option Str :=
  if '{' ∈ text then scanFrom initScan (text.dropWhile (· != '{')) else none

/-- A character list is shaped like a balanced object when it opens with a
brace and the scanner, started fresh on it, first returns to depth zero
exactly at its last character (consuming all of it).  Every syntactically
valid JSON object text has this shape. -/
def BalancedObject (obj : Str) : Prop :=
  obj.head? = some '{' ∧ scanFrom initScan obj = some obj

instance (obj : Str) : Decidable (BalancedObject obj) := by
  unfold BalancedObject; infer_instance

/-- An early scanner return is insensitive to extending the text to the
right of the point where depth first returns to zero. -/
theorem scanFrom_extend (st : ScanState) (xs : Str) (r : Str) (ys : Str)
    (h : scanFrom st xs = some r) : scanFrom st (xs ++ ys) = some r := by
  induction xs generalizing st r with
  | nil => simp [scanFrom] at h
  | cons c tl ih =>
    rw [List.cons_append]
    rw [scanFrom] at h ⊢
    by_cases hd : (scanStep st c).depth = 0
    · simpa [hd] using h
    · simp only [if_neg hd] at h ⊢
      cases he : scanFrom (scanStep st c) tl with
      | none => rw [he] at h; exact absurd h (by simp)
      | some tl' =>
        rw [he] at h
        rw [ih _ _ he]
        exact h

/-- If every nonempty prefix of the text leaves the scanner at nonzero
depth, the scanning loop never returns a slice. -/
theorem scanFrom_eq_none (st : ScanState) (l : Str)
    (h : ∀ n : Nat, n < l.length → ((l.take (n + 1)).foldl scanStep st).depth ≠ 0) :
    scanFrom st l = none := by
  induction l generalizing st with
  | nil => rfl
  | cons c tl ih =>
    have h0 : (scanStep st c).depth ≠ 0 := by
      have := h 0 (by simp)
      simpa using this
    rw [scanFrom, if_neg h0]
    have htl : scanFrom (scanStep st c) tl = none := by
      apply ih
      intro n hn
      have := h (n + 1) (by simpa using Nat.succ_lt_succ hn)
      simpa [List.take_succ_cons] using this
    rw [htl]

/-- Dropping the no-brace predicate over a concatenation whose left part
contains no brace skips exactly that left part. -/
theorem dropWhile_append_no_brace (pre rest : Str) (hpre : '{' ∉ pre) :
    (pre ++ rest).dropWhile (· != '{') = rest.dropWhile (· != '{') := by
  induction pre with
  | nil => simp
  | cons c tl ih =>
    have hc : c ≠ '{' := by
      intro hc; exact hpre (by simp [hc])
    have htl : '{' ∉ tl := fun hm => hpre (List.mem_cons_of_mem _ hm)
    rw [List.cons_append, List.dropWhile_cons, if_pos (by simpa using hc)]
    exact ih htl

/-- Claim C1, corrected.  As frozen the claim promises extraction of the
balanced object for arbitrary surrounding commentary, but the source starts
scanning at the first brace of the whole text, so commentary that itself
contains a brace before the object breaks extraction (see the
counterexample).  Amended: for every text of the form pre ++ obj ++ post
where obj is a balanced object and the preceding commentary pre contains no
brace, extraction returns exactly obj (braces inside double-quoted strings,
escapes tracked, do not end it early); with no brace in the whole text, or
with the depth never returning to zero before the text ends, the result is
the no-candidate value rather than an error. -/
theorem claim_C1_extractor :
    (∀ pre obj post : Str, '{' ∉ pre → BalancedObject obj →
      extractFirstJsonObject (pre ++ obj ++ post) = some obj) ∧
    (∀ text : Str, '{' ∉ text → extractFirstJsonObject text = none) ∧
    (∀ text : Str,
      (∀ n : Nat, n < (text.dropWhile (· != '{')).length →
        (((text.dropWhile (· != '{')).take (n + 1)).foldl scanStep initScan).depth ≠ 0) →
      extractFirstJsonObject text = none) := by
  refine ⟨?_, ?_, ?_⟩
  · intro pre obj post hpre hobj
    obtain ⟨hhead, hbal⟩ := hobj
    obtain ⟨o, rfl⟩ : ∃ o, obj = '{' :: o := by
      cases obj with
      | nil => simp at hhead
      | cons c tl =>
        have hc : c = '{' := by simpa using hhead
        exact ⟨tl, by rw [hc]⟩
    have hmem : '{' ∈ pre ++ ('{' :: o) ++ post := by simp
    rw [extractFirstJsonObject, if_pos hmem, List.append_assoc,
      dropWhile_append_no_brace _ _ hpre, List.cons_append, List.dropWhile_cons]
    simp only [bne_self_eq_false, if_neg]
    rw [← List.cons_append]
    exact scanFrom_extend _ _ _ _ hbal
  · intro text htext
    rw [extractFirstJsonObject, if_neg htext]
  · intro text hdepth
    by_cases hmem : '{' ∈ text
    · rw [extractFirstJsonObject, if_pos hmem]
      exact scanFrom_eq_none _ _ hdepth
    · rw [extractFirstJsonObject, if_neg hmem]

/-- Claim C1 counterexample: the text x\x7by \x7b"a":1\x7d z contains the
balanced JSON object \x7b"a":1\x7d preceded by the commentary x\x7by
(which contains a brace) and followed by the commentary z, yet the
extractor returns the no-candidate value instead of that object: it starts
at the first brace of the commentary and the depth never returns to
zero. -/
theorem claim_C1_counterexample :
    BalancedObject "\x7b\"a\":1\x7d".data ∧
    extractFirstJsonObject
      ("x\x7by ".data ++ "\x7b\"a\":1\x7d".data ++ " z".data) = none := by
  decide

/-- Claim C1 witness: the amended theorem applied to concrete texts — the
two extraction examples of the spec (plain commentary around an object, and
braces inside a quoted string value), a brace-free text, and a text whose
brace is never closed. -/
theorem claim_C1_extractor_witness :
    extractFirstJsonObject
        ("here is it: ".data ++ "\x7b\"a\":1\x7d".data ++ " thanks".data) =
      some "\x7b\"a\":1\x7d".data ∧
    extractFirstJsonObject
        ("noise ".data ++ "\x7b\"note\":\"a\x7bb\x7dc\",\"x\":1\x7d".data ++ " end".data) =
      some "\x7b\"note\":\"a\x7bb\x7dc\",\"x\":1\x7d".data ∧
    extractFirstJsonObject "no braces at all".data = none ∧
    extractFirstJsonObject "start \x7b never closed".data = none := by
  refine ⟨?_, ?_, ?_, ?_⟩
  · exact claim_C1_extractor.1 _ _ _ (by decide) (by decide)
  · exact claim_C1_extractor.1 _ _ _ (by decide) (by decide)
  · exact claim_C1_extractor.2.1 _ (by decide)
  · exact claim_C1_extractor.2.2 _ (by decide)

/-! ### String helpers shared by the resolver (trim, case mapping, the
3-letter test), modelling the JS string methods used by the source for
the ASCII inputs they are applied to. -/

/-- Whitespace stripped by the JS trim, ASCII part. -/
def isJsWhitespace (c : Char) : Bool :=
  c == ' ' || c == '\t' || c == '\n' || c == '\r' || c == '\x0b' || c == '\x0c'

/-- JS String.prototype.trim: strip leading and trailing whitespace. -/
def strTrim (s : Str) : Str :=
  ((s.dropWhile isJsWhitespace).reverse.dropWhile isJsWhitespace).reverse

/-- JS String.prototype.toUpperCase on ASCII text. -/
def strUpper (s : Str) : Str := s.map Char.toUpper

/-- JS String.prototype.toLowerCase on ASCII text. -/
def strLower (s : Str) : Str := s.map Char.toLower

/-- The test of the regular expression for one whole 3-letter token
(caret A-Za-z three times dollar): exactly three alphabetic characters. -/
def isIataShape (s : Str) : Bool := s.length == 3 && s.all Char.isAlpha

/-- A code of exactly 3 uppercase alphabetic characters (the shape the
AirportResolution invariant of the spec requires of every element). -/
def isUpperCode (s : Str) : Bool := s.length == 3 && s.all Char.isUpper

/-! ### Airport resolver (source lines 176-240) -/

/-- One field of the parsed model output, handled untyped by the source:
absent-or-null, a bare string, or an array of strings.  Any other JS value
behaves like one of these three through truthiness and arrayifyCodes
(a number or object is arrayified to the empty list like null, and is
truthy or falsy like a string is). -/
inductive JVal where
  | vnull
  | vstr (s : Str)
  | varr (l : List Str)
  deriving DecidableEq, Repr

/-- JS truthiness of a JVal: null and the empty string are falsy; every
array (even the empty one) is truthy. -/
def truthy : JVal → Bool
  | .vnull => false
  | .vstr s => !s.isEmpty
  | .varr _ => true

/-- arrayifyCodes (source lines 185-190): a falsy value gives the empty
list, an array maps element-wise through uppercasing, a bare string
becomes a one-element list of its uppercasing. -/
def arrayifyCodes : JVal → List Str
  | .vnull => []
  | .vstr s => if s.isEmpty then [] else [strUpper s]
  | .varr l => l.map strUpper

/-- The parsed result of the model airport lookup with its two keys. -/
structure AirportLookup where
  source_airports : JVal
  destination_airports : JVal
  deriving DecidableEq, Repr

/-- COUNTRY_AIRPORTS (source lines 9-25): the static lowercase-key country
to airport-code-list table. -/
def COUNTRY_AIRPORTS : List (Str × List Str) := [
  ("germany".data, ["FRA".data, "MUC".data, "BER".data, "DUS".data, "HAM".data]),
  ("france".data, ["CDG".data, "ORY".data, "NCE".data, "LYS".data, "MRS".data]),
  ("italy".data, ["FCO".data, "MXP".data, "VCE".data, "NAP".data, "BGY".data]),
  ("spain".data, ["MAD".data, "BCN".data, "PMI".data, "AGP".data, "SVQ".data]),
  ("uk".data, ["LHR".data, "LGW".data, "MAN".data, "EDI".data, "BHX".data]),
  ("united kingdom".data, ["LHR".data, "LGW".data, "MAN".data, "EDI".data, "BHX".data]),
  ("usa".data, ["JFK".data, "LAX".data, "ORD".data, "DFW".data, "ATL".data]),
  ("united states".data, ["JFK".data, "LAX".data, "ORD".data, "DFW".data, "ATL".data]),
  ("canada".data, ["YYZ".data, "YVR".data, "YUL".data, "YYC".data, "YOW".data]),
  ("japan".data, ["NRT".data, "HND".data, "KIX".data, "NGO".data, "FUK".data]),
  ("australia".data, ["SYD".data, "MEL".data, "BNE".data, "PER".data, "ADL".data]),
  ("india".data, ["DEL".data, "BOM".data, "BLR".data, "CCU".data, "MAA".data]),
  ("china".data, ["PEK".data, "PVG".data, "CAN".data, "CTU".data, "SZX".data]),
  ("brazil".data, ["GRU".data, "GIG".data, "BSB".data, "CGH".data, "SSA".data]),
  ("mexico".data, ["MEX".data, "CUN".data, "GDL".data, "MTY".data, "TIJ".data])]

/-- Key lookup in the static table. -/
def countryLookup (k : Str) : Option (List Str) :=
  (COUNTRY_AIRPORTS.find? (fun e => e.1 == k)).map (·.2)

/-- The per-side fallback tier (source lines 202-225): only when the side
is still empty — a trimmed input of exactly 3 letters becomes its own
single uppercased code, otherwise the trimmed lowercased input is looked
up in the static table (an absent key leaves the side empty). -/
def sideFallback (input : Str) (codes : List Str) : List Str :=
  if codes.isEmpty then
    let s := strTrim input
    if isIataShape s then [strUpper s]
    else
      match countryLookup (strTrim (strLower s)) with
      | some l => l
      | none => []
  else codes

/-- The final same-side substitution (source lines 227-234): an empty side
receives a one-element list holding the other side's first code; the
destination check observes the already-updated source list. -/
def finalFallback (src dst : List Str) : List Str × List Str :=
  let src' := if src.isEmpty && !dst.isEmpty then [dst.headD []] else src
  let dst' := if dst.isEmpty && !src'.isEmpty then [src'.headD []] else dst
  (src', dst')

/-- The whole resolver chain (source lines 192-234), parameterised by the
outcome of the model lookup: none models a failed or unparsable upstream
call (the catch at lines 179-182 and the null results of parsing).  When
the parsed lookup has either key truthy, both keys are arrayified;
otherwise both sides start empty; then the per-side fallback and the final
same-side substitution run. -/
def resolveAirports (source destination : Str) (lookup : Option AirportLookup) :
    List Str × List Str :=
  let st :=
    match lookup with
    | some a =>
      if truthy a.source_airports || truthy a.destination_airports then
        (arrayifyCodes a.source_airports, arrayifyCodes a.destination_airports)
      else ([], [])
    | none => ([], [])
  finalFallback (sideFallback source st.1) (sideFallback destination st.2)

/-- A side input that the per-side fallback tier can resolve on its own:
its trim is 3 alphabetic characters, or its lowercased trim is a
static-table key. -/
def sideResolvable (input : Str) : Bool :=
  isIataShape (strTrim input) ||
    (countryLookup (strTrim (strLower (strTrim input)))).isSome

/-- A character built from a small valid scalar value keeps that value. -/
theorem toNat_ofNat_of_small (m : Nat) (h : m < 55296) : (Char.ofNat m).toNat = m := by
  have hv : m.isValidChar := Or.inl h
  simp [Char.ofNat, hv, Char.ofNatAux, Char.toNat, UInt32.toNat, BitVec.toNat_ofNatLt]

/-- Uppercasing an alphabetic character yields an uppercase character. -/
theorem isUpper_toUpper (c : Char) (h : c.isAlpha = true) : c.toUpper.isUpper = true := by
  simp [Char.isAlpha, Char.isUpper, Char.isLower] at h
  have e65 : ((65 : UInt32)).toNat = 65 := rfl
  have e90 : ((90 : UInt32)).toNat = 90 := rfl
  rcases h with ⟨h1, h2⟩ | ⟨h1, h2⟩
  · have n1 : 65 ≤ c.toNat := by
      have := UInt32.le_def.mp h1
      simpa [BitVec.le_def] using this
    have n2 : c.toNat ≤ 90 := by
      have := UInt32.le_def.mp h2
      simpa [BitVec.le_def] using this
    have hno : ¬(97 ≤ c.toNat ∧ c.toNat ≤ 122) := by omega
    simp only [Char.toUpper, if_neg hno, Char.isUpper, Bool.and_eq_true,
      decide_eq_true_eq]
    exact ⟨h1, h2⟩
  · have n1 : 97 ≤ c.toNat := by
      have := UInt32.le_def.mp h1
      simpa [BitVec.le_def] using this
    have n2 : c.toNat ≤ 122 := by
      have := UInt32.le_def.mp h2
      simpa [BitVec.le_def] using this
    have hcond : 97 ≤ c.toNat ∧ c.toNat ≤ 122 := ⟨n1, n2⟩
    have ht : (Char.ofNat (c.toNat - 32)).toNat = c.toNat - 32 :=
      toNat_ofNat_of_small _ (by omega)
    simp only [Char.toUpper, if_pos hcond, Char.isUpper, Bool.and_eq_true,
      decide_eq_true_eq]
    refine ⟨?_, ?_⟩
    · show (65 : UInt32).toNat ≤ (Char.ofNat (c.toNat - 32)).val.toNat
      rw [e65]
      show 65 ≤ (Char.ofNat (c.toNat - 32)).toNat
      omega
    · show (Char.ofNat (c.toNat - 32)).val.toNat ≤ (90 : UInt32).toNat
      rw [e90]
      show (Char.ofNat (c.toNat - 32)).toNat ≤ 90
      omega

/-- Every static-table row has a non-empty code list whose elements are all
3-letter uppercase codes. -/
theorem countryTable_wf :
    ∀ e ∈ COUNTRY_AIRPORTS, e.2 ≠ [] ∧ ∀ c ∈ e.2, isUpperCode c = true := by
  decide

/-- A successful static-table lookup returns a non-empty list of 3-letter
uppercase codes. -/
theorem countryLookup_wf (k : Str) (l : List Str) (h : countryLookup k = some l) :
    l ≠ [] ∧ ∀ c ∈ l, isUpperCode c = true := by
  unfold countryLookup at h
  cases hf : COUNTRY_AIRPORTS.find? (fun e => e.1 == k) with
  | none => rw [hf] at h; exact absurd h (by simp)
  | some e =>
    rw [hf] at h
    have h' : some e.2 = some l := h
    obtain rfl : e.2 = l := Option.some.inj h'
    exact countryTable_wf e (List.mem_of_find?_eq_some hf)

/-- Uppercasing a 3-letter alphabetic token yields a 3-letter uppercase
code. -/
theorem isUpperCode_strUpper (s : Str) (h : isIataShape s = true) :
    isUpperCode (strUpper s) = true := by
  unfold isIataShape at h
  simp only [Bool.and_eq_true, beq_iff_eq, List.all_eq_true] at h
  obtain ⟨h1, h2⟩ := h
  unfold isUpperCode strUpper
  simp only [Bool.and_eq_true, beq_iff_eq, List.all_eq_true, List.length_map]
  refine ⟨h1, ?_⟩
  intro c hc
  obtain ⟨x, hx, rfl⟩ := List.mem_map.mp hc
  exact isUpper_toUpper x (h2 x hx)

/-- Whatever the per-side fallback produces for an empty side is made of
3-letter uppercase codes. -/
theorem sideFallback_empty_wf (input : Str) :
    ∀ c ∈ sideFallback input [], isUpperCode c = true := by
  intro c hc
  simp only [sideFallback, List.isEmpty_nil, if_true] at hc
  by_cases hi : isIataShape (strTrim input) = true
  · rw [if_pos hi] at hc
    simp only [List.mem_singleton] at hc
    subst hc
    exact isUpperCode_strUpper _ hi
  · rw [if_neg hi] at hc
    cases hl : countryLookup (strTrim (strLower (strTrim input))) with
    | none => rw [hl] at hc; exact absurd hc (by simp)
    | some l => rw [hl] at hc; exact (countryLookup_wf _ _ hl).2 c hc

/-- A resolvable input makes the per-side fallback non-empty. -/
theorem sideFallback_resolvable_ne (input : Str) (h : sideResolvable input = true) :
    sideFallback input [] ≠ [] := by
  simp only [sideResolvable, Bool.or_eq_true] at h
  simp only [sideFallback, List.isEmpty_nil, if_true]
  rcases h with h | h
  · rw [if_pos h]; simp
  · obtain ⟨l, hl⟩ := Option.isSome_iff_exists.mp h
    by_cases hi : isIataShape (strTrim input) = true
    · rw [if_pos hi]; simp
    · rw [if_neg hi, hl]
      exact (countryLookup_wf _ _ hl).1

/-- A side that already has codes passes through the per-side fallback
unchanged. -/
theorem sideFallback_ne (input : Str) (codes : List Str) (h : codes ≠ []) :
    sideFallback input codes = codes := by
  unfold sideFallback
  rw [if_neg (by simpa [List.isEmpty_iff] using h)]

/-- Claim C2 counterexample: two resolver runs violate the claimed
invariant.  First, with source zz (neither a 3-letter token nor a table
key), empty destination and a failed upstream lookup, both result lists
are empty although the inputs are not both empty — the fallback chain
guarantees nothing when no side resolves.  Second, with a parsed upstream
result holding the array with the single entry hello, the result lists
hold the five-letter code HELLO, which is not 3 characters: the source
uppercases model-provided entries but never validates their shape. -/
theorem claim_C2_counterexample :
    resolveAirports "zz".data [] none = ([], []) ∧
    resolveAirports "zz".data "Paris city".data
        (some ⟨JVal.varr ["hello".data], JVal.vnull⟩) =
      (["HELLO".data], ["HELLO".data]) := by
  decide

/-- The final same-side substitution, characterised by the emptiness of
its two arguments. -/
theorem finalFallback_eq (s d : List Str) :
    finalFallback s d =
      match s, d with
      | [], [] => ([], [])
      | [], e :: es => ([e], e :: es)
      | a :: as, [] => (a :: as, [a])
      | a :: as, e :: es => (a :: as, e :: es) := by
  cases s <;> cases d <;> rfl

/-- Claim C2, corrected and restricted to what the code guarantees: for
every pair of inputs, when the upstream lookup produced no structured
result, every element of both final lists is an uppercase 3-letter
alphabetic code; and when additionally at least one side is resolvable by
the per-side fallback (its trim is 3 letters, or its lowercased trim is a
static-table key), both final lists are non-empty. -/
theorem claim_C2_resolver_invariant (source destination : Str) :
    (∀ c ∈ (resolveAirports source destination none).1, isUpperCode c = true) ∧
    (∀ c ∈ (resolveAirports source destination none).2, isUpperCode c = true) ∧
    ((sideResolvable source = true ∨ sideResolvable destination = true) →
      (resolveAirports source destination none).1 ≠ [] ∧
      (resolveAirports source destination none).2 ≠ []) := by
  have hres : resolveAirports source destination none =
      finalFallback (sideFallback source []) (sideFallback destination []) := rfl
  have hswf := sideFallback_empty_wf source
  have hdwf := sideFallback_empty_wf destination
  rw [hres, finalFallback_eq]
  cases hse : sideFallback source [] with
  | nil =>
    rw [hse] at hswf
    cases hde : sideFallback destination [] with
    | nil =>
      rw [hde] at hdwf
      refine ⟨by simp, by simp, ?_⟩
      rintro (h | h)
      · exact absurd hse (sideFallback_resolvable_ne source h)
      · exact absurd hde (sideFallback_resolvable_ne destination h)
    | cons e es =>
      rw [hde] at hdwf
      refine ⟨?_, hdwf, fun _ => ⟨by simp, by simp⟩⟩
      intro c hc
      simp only [List.mem_singleton] at hc
      subst hc
      exact hdwf _ (by simp)
  | cons a as =>
    rw [hse] at hswf
    cases hde : sideFallback destination [] with
    | nil =>
      rw [hde] at hdwf
      refine ⟨hswf, ?_, fun _ => ⟨by simp, by simp⟩⟩
      intro c hc
      simp only [List.mem_singleton] at hc
      subst hc
      exact hswf _ (by simp)
    | cons e es =>
      rw [hde] at hdwf
      exact ⟨hswf, hdwf, fun _ => ⟨by simp, by simp⟩⟩

/-- Claim C2 witness: the corrected invariant applied to the concrete
inputs nrt (with surrounding spaces) and usa: both sides resolve, and the
first code of the source side is a 3-letter uppercase code. -/
theorem claim_C2_resolver_invariant_witness :
    (resolveAirports " nrt ".data "usa".data none).1 ≠ [] ∧
    (resolveAirports " nrt ".data "usa".data none).2 ≠ [] ∧
    isUpperCode ((resolveAirports " nrt ".data "usa".data none).1.headD []) = true := by
  have h := claim_C2_resolver_invariant " nrt ".data "usa".data
  refine ⟨(h.2.2 (Or.inl (by decide))).1, (h.2.2 (Or.inl (by decide))).2, ?_⟩
  exact h.1 _ (by decide)

/-- Claim C3, confirmed: in the final fallback tier an empty source list
with a non-empty destination list becomes the one-element list of the
destination's first code, and symmetrically for an empty destination list
(the destination check reads the already-updated source list); hence one
non-empty side makes both sides non-empty.  Concretely, a code-shaped
source XYZ with an empty, unresolvable destination and a failing upstream
resolves to source list XYZ and destination list XYZ. -/
theorem claim_C3_same_side_substitution :
    (∀ d : List Str, d ≠ [] → finalFallback [] d = ([d.headD []], d)) ∧
    (∀ s : List Str, s ≠ [] → finalFallback s [] = (s, [s.headD []])) ∧
    (∀ s d : List Str, s ≠ [] ∨ d ≠ [] →
      (finalFallback s d).1 ≠ [] ∧ (finalFallback s d).2 ≠ []) ∧
    resolveAirports "XYZ".data [] none = (["XYZ".data], ["XYZ".data]) := by
  refine ⟨?_, ?_, ?_, by decide⟩
  · intro d hd
    cases d with
    | nil => exact absurd rfl hd
    | cons e es => simp [finalFallback_eq]
  · intro s hs
    cases s with
    | nil => exact absurd rfl hs
    | cons a as => simp [finalFallback_eq]
  · intro s d h
    rw [finalFallback_eq]
    cases s <;> cases d <;> simp_all

/-- Claim C3 witness: the same-side substitution applied to the concrete
one-sided lists CDG (destination only) and JFK (source only). -/
theorem claim_C3_same_side_substitution_witness :
    finalFallback [] ["CDG".data] = (["CDG".data], ["CDG".data]) ∧
    finalFallback ["JFK".data] [] = (["JFK".data], ["JFK".data]) ∧
    (finalFallback ["JFK".data] []).1 ≠ [] ∧
    (finalFallback ["JFK".data] []).2 ≠ [] := by
  refine ⟨claim_C3_same_side_substitution.1 _ (by decide),
    claim_C3_same_side_substitution.2.1 _ (by decide),
    (claim_C3_same_side_substitution.2.2.1 _ _ (Or.inl (by decide))).1,
    (claim_C3_same_side_substitution.2.2.1 _ _ (Or.inl (by decide))).2⟩

/-- Claim C7, confirmed: for a side still empty after the model tiers, a
trimmed 3-letter input becomes its own uppercased single code; otherwise a
static-table hit on the trimmed lowercased input becomes that key's code
list.  Concretely, source Germany and destination France with a failing
upstream resolve to the German and French table rows. -/
theorem claim_C7_static_table_fallback :
    (∀ input : Str, isIataShape (strTrim input) = true →
      sideFallback input [] = [strUpper (strTrim input)]) ∧
    (∀ input : Str, ∀ l : List Str, isIataShape (strTrim input) = false →
      countryLookup (strTrim (strLower (strTrim input))) = some l →
      sideFallback input [] = l) ∧
    resolveAirports "Germany".data "France".data none =
      (["FRA".data, "MUC".data, "BER".data, "DUS".data, "HAM".data],
       ["CDG".data, "ORY".data, "NCE".data, "LYS".data, "MRS".data]) := by
  refine ⟨?_, ?_, by decide⟩
  · intro input h
    simp [sideFallback, h]
  · intro input l h hl
    simp [sideFallback, h, hl]

/-- Claim C7 witness: the per-side fallback applied to the concrete inputs
cdg (code-shaped, with surrounding spaces) and Italy (a table key once
trimmed and lowercased). -/
theorem claim_C7_static_table_fallback_witness :
    sideFallback " cdg ".data [] = ["CDG".data] ∧
    sideFallback " Italy ".data [] =
      ["FCO".data, "MXP".data, "VCE".data, "NAP".data, "BGY".data] := by
  constructor
  · exact (claim_C7_static_table_fallback.1 " cdg ".data (by decide)).trans (by decide)
  · exact claim_C7_static_table_fallback.2.1 " Italy ".data _ (by decide) (by decide)

/-! ### Flight aggregator (source lines 242-306) -/

/-- Number.MAX_SAFE_INTEGER, the sort key given to an absent (or falsy)
price on source line 295. -/
def maxSafeInteger : Nat := 2 ^ 53 - 1

/-- One provider offer as far as the claims observe it: its price (absent
when the provider omits the field) and an opaque payload standing for the
other extracted fields (names, duration, airline, legs, times), which no
claim constrains. -/
structure RawOffer where
  price : Option Nat
  payload : Str
  deriving DecidableEq, Repr

/-- One normalized flight option (source lines 268-283): the requested
destination code stamped onto the offer, the offer price, and the opaque
payload. -/
structure FlightOption where
  destination : Str
  price : Option Nat
  payload : Str
  deriving DecidableEq, Repr

/-- The per-offer normalization at source lines 268-283. -/
def toFlightOption (destAirport : Str) (f : RawOffer) : FlightOption :=
  ⟨destAirport, f.price, f.payload⟩

/-- The per-destination result slice (source lines 256-292): none models
every failure path — a thrown fetch error, a non-success status, or an
absent best_flights list — all of which give the empty slice for that
destination only; a successful response maps its offers through the
normalization. -/
def destResult (provider : Str → Option (List RawOffer)) (d : Str) :
    List FlightOption :=
  match provider d with
  | some offers => offers.map (toFlightOption d)
  | none => []

/-- The sort key of source line 295: a present non-zero price is its own
key; an absent price — and, through JS falsiness, a present price of
exactly 0 — gets Number.MAX_SAFE_INTEGER. -/
def priceKey (p : Option Nat) : Nat :=
  match p with
  | some v => if v = 0 then maxSafeInteger else v
  | none => maxSafeInteger

/-- Stable insertion: the incoming element (earlier in the unsorted input)
is placed before the first resident whose key is not smaller. -/
def insertByKey (x : FlightOption) : List FlightOption → List FlightOption
  | [] => [x]
  | y :: ys =>
    if priceKey x.price ≤ priceKey y.price then x :: y :: ys
    else y :: insertByKey x ys

/-- The sort of source line 295.  ECMAScript Array.prototype.sort is
specified stable, and a stable sort consistent with the total preorder
induced by the price-key comparator is unique, so it equals this stable
insertion sort. -/
def sortByPrice (l : List FlightOption) : List FlightOption :=
  l.foldr insertByKey []

/-- selectedAirportCode (source lines 297-301): with a non-empty sorted
list, the first entry's destination if that string is truthy, else the
first requested destination code if truthy, else null; with an empty list
it stays null. -/
def selectCode (flightData : List FlightOption) (dests : List Str) : Option Str :=
  match flightData with
  | [] => none
  | f :: _ =>
    if f.destination ≠ [] then some f.destination
    else
      match dests with
      | [] => none
      | d :: _ => if d ≠ [] then some d else none

/-- The flight aggregation (source lines 256-301): flatten the
per-destination slices in request order, sort by price key, and select the
code for the itinerary. -/
def searchFlights (dests : List Str) (provider : Str → Option (List RawOffer)) :
    List FlightOption × Option Str :=
  let flightData := sortByPrice (dests.map (destResult provider)).flatten
  (flightData, selectCode flightData dests)

/-- originAirportForSearch (source line 239): the first resolved source
airport, or, with none resolved, the raw source input itself. -/
def originAirportForSearch (sourceAirports : List Str) (source : Str) : Str :=
  match sourceAirports with
  | [] => source
  | a :: _ => a

/-- The per-destination search requests of source lines 256-262, keeping
the fields that vary between requests: departure_id (always the one
computed origin) and arrival_id (the destination code of the slice). -/
def flightRequests (origin : Str) (dests : List Str) : List (Str × Str) :=
  dests.map (fun d => (origin, d))

/-- Inserting an element permutes its cons. -/
theorem insertByKey_perm (x : FlightOption) (l : List FlightOption) :
    List.Perm (insertByKey x l) (x :: l) := by
  induction l with
  | nil => exact List.Perm.refl _
  | cons y ys ih =>
    rw [insertByKey]
    by_cases h : priceKey x.price ≤ priceKey y.price
    · rw [if_pos h]
    · rw [if_neg h]
      exact (ih.cons y).trans (List.Perm.swap x y ys)

/-- The sorted output is a permutation of the input: no offer is removed,
absent-price offers included. -/
theorem sortByPrice_perm (l : List FlightOption) :
    List.Perm (sortByPrice l) l := by
  induction l with
  | nil => exact List.Perm.refl _
  | cons x xs ih =>
    exact (insertByKey_perm x (sortByPrice xs)).trans (ih.cons x)

/-- Insertion preserves the pairwise key ordering. -/
theorem insertByKey_pairwise (x : FlightOption) (l : List FlightOption)
    (h : l.Pairwise (fun a b => priceKey a.price ≤ priceKey b.price)) :
    (insertByKey x l).Pairwise (fun a b => priceKey a.price ≤ priceKey b.price) := by
  induction l with
  | nil => simp [insertByKey]
  | cons y ys ih =>
    rw [insertByKey]
    rcases List.pairwise_cons.mp h with ⟨hy, hys⟩
    by_cases hk : priceKey x.price ≤ priceKey y.price
    · rw [if_pos hk]
      refine List.pairwise_cons.mpr ⟨?_, h⟩
      intro b hb
      rcases List.mem_cons.mp hb with rfl | hb
      · exact hk
      · exact hk.trans (hy b hb)
    · rw [if_neg hk]
      refine List.pairwise_cons.mpr ⟨?_, ih hys⟩
      intro b hb
      rcases List.mem_cons.mp ((insertByKey_perm x ys).mem_iff.mp hb) with rfl | hb2
      · exact Nat.le_of_not_le hk
      · exact hy b hb2

/-- The sorted output is ascending in the price key. -/
theorem sortByPrice_pairwise (l : List FlightOption) :
    (sortByPrice l).Pairwise (fun a b => priceKey a.price ≤ priceKey b.price) := by
  induction l with
  | nil => simp [sortByPrice]
  | cons x xs ih => exact insertByKey_pairwise x (sortByPrice xs) ih

/-- Insertion keeps every equal-key subsequence intact: the inserted
element lands before every resident of its own key, because the walk only
passes residents with strictly smaller keys. -/
theorem insertByKey_filter (x : FlightOption) (l : List FlightOption) (k : Nat) :
    (insertByKey x l).filter (fun a => priceKey a.price == k) =
      if priceKey x.price == k then
        x :: l.filter (fun a => priceKey a.price == k)
      else l.filter (fun a => priceKey a.price == k) := by
  induction l with
  | nil =>
    by_cases hx : (priceKey x.price == k) = true
    · simp [insertByKey, List.filter, hx]
    · simp [insertByKey, List.filter, hx]
  | cons y ys ih =>
    rw [insertByKey]
    by_cases hk : priceKey x.price ≤ priceKey y.price
    · rw [if_pos hk]
      by_cases hx : (priceKey x.price == k) = true
      · simp [List.filter, hx]
      · simp [List.filter, hx]
    · rw [if_neg hk]
      have hlt : priceKey y.price < priceKey x.price := Nat.lt_of_not_le hk
      by_cases hy : (priceKey y.price == k) = true
      · have hxk : (priceKey x.price == k) = false := by
          have hyk : priceKey y.price = k := by simpa using hy
          have : priceKey x.price ≠ k := by omega
          simpa using this
        simp [List.filter_cons, hy, hxk, ih]
      · simp [List.filter_cons, hy, ih]

/-- Stability: for every key, the subsequence of the sorted output with
that key is exactly the subsequence of the input with that key, in input
order. -/
theorem sortByPrice_filter (l : List FlightOption) (k : Nat) :
    (sortByPrice l).filter (fun a => priceKey a.price == k) =
      l.filter (fun a => priceKey a.price == k) := by
  induction l with
  | nil => rfl
  | cons x xs ih =>
    show (insertByKey x (sortByPrice xs)).filter (fun a => priceKey a.price == k) = _
    rw [insertByKey_filter]
    by_cases hx : (priceKey x.price == k) = true <;>
      simp [List.filter_cons, hx, ih]

/-- Concrete provider for the claim C5 scenario: one offer priced 100 for
the empty-string destination code, failure everywhere else. -/
def provC5 : Str → Option (List RawOffer) := fun d =>
  if d = [] then some [⟨some 100, "offer".data⟩] else none

/-- Claim C5 counterexample: with requested destinations CDG and the empty
string, and one offer (priced 100) returned for the empty-string
destination, the sorted sequence is non-empty and its first entry's
destination code is the empty string — but selectedAirportCode is CDG,
not that first entry's destination: line 299 falls back through JS
falsiness to the first requested destination code when the first entry's
destination is the empty string. -/
theorem claim_C5_counterexample :
    (searchFlights ["CDG".data, []] provC5).1 =
      [⟨[], some 100, "offer".data⟩] ∧
    (searchFlights ["CDG".data, []] provC5).2 = some "CDG".data := by
  decide

/-- Claim C5, corrected in its selection clause.  The output sequence is
the flattened per-destination results stably sorted ascending by the price
key (an absent price gets Number.MAX_SAFE_INTEGER as its key, sorting
last but staying in the output): it is a permutation of the flattened
slices, pairwise ascending in the key, and every equal-key subsequence
keeps the flattened (destination-request) order.  Amended selection rule:
with a non-empty sorted sequence, selectedAirportCode is the first entry's
destination code when that string is non-empty; when it is empty, the
first requested destination code is used if non-empty, and null
otherwise; with an empty sequence it is null. -/
theorem claim_C5_flight_sort (dests : List Str)
    (provider : Str → Option (List RawOffer)) :
    (searchFlights dests provider).1 =
      sortByPrice (dests.map (destResult provider)).flatten ∧
    List.Perm (searchFlights dests provider).1
      (dests.map (destResult provider)).flatten ∧
    (searchFlights dests provider).1.Pairwise
      (fun a b => priceKey a.price ≤ priceKey b.price) ∧
    priceKey none = maxSafeInteger ∧
    (∀ k : Nat,
      (searchFlights dests provider).1.filter (fun a => priceKey a.price == k) =
        (dests.map (destResult provider)).flatten.filter
          (fun a => priceKey a.price == k)) ∧
    ((searchFlights dests provider).1 = [] →
      (searchFlights dests provider).2 = none) ∧
    (∀ f : FlightOption, ∀ rest : List FlightOption,
      (searchFlights dests provider).1 = f :: rest →
      (searchFlights dests provider).2 =
        (if f.destination ≠ [] then some f.destination
         else
           match dests with
           | [] => none
           | d :: _ => if d ≠ [] then some d else none)) := by
  refine ⟨rfl, sortByPrice_perm _, sortByPrice_pairwise _, rfl,
    fun k => sortByPrice_filter _ k, ?_, ?_⟩
  · intro h
    show selectCode (sortByPrice (dests.map (destResult provider)).flatten) dests = none
    rw [show sortByPrice (dests.map (destResult provider)).flatten = [] from h]
    rfl
  · intro f rest h
    show selectCode (sortByPrice (dests.map (destResult provider)).flatten) dests = _
    rw [show sortByPrice (dests.map (destResult provider)).flatten = f :: rest from h]
    rfl

/-- Claim C5 witness: the corrected theorem applied to the
counterexample scenario (destinations CDG and the empty string, provider
provC5) and to the empty destination list. -/
theorem claim_C5_flight_sort_witness :
    (searchFlights ["CDG".data, []] provC5).1.Pairwise
      (fun a b => priceKey a.price ≤ priceKey b.price) ∧
    (searchFlights ["CDG".data, []] provC5).2 = some "CDG".data ∧
    (searchFlights ([] : List Str) provC5).2 = none := by
  refine ⟨(claim_C5_flight_sort ["CDG".data, []] provC5).2.2.1, ?_, ?_⟩
  · exact ((claim_C5_flight_sort ["CDG".data, []] provC5).2.2.2.2.2.2
      ⟨[], some 100, "offer".data⟩ [] (by decide)).trans (by decide)
  · exact (claim_C5_flight_sort [] provC5).2.2.2.2.2.1 (by decide)

/-- Concrete provider for the claim C6 scenario: the search for AAA fails
entirely; the search for BBB returns three offers priced 500, 200, 800. -/
def provC6 : Str → Option (List RawOffer) := fun d =>
  if d = "BBB".data then
    some [⟨some 500, "f1".data⟩, ⟨some 200, "f2".data⟩, ⟨some 800, "f3".data⟩]
  else none

/-- Claim C6, confirmed: a failed destination contributes exactly the
empty slice while every other destination's slice only depends on that
destination's own provider outcome (changing one destination to a failure
rewrites only its own slice); and in the concrete two-destination
scenario — AAA failing, BBB returning prices 500, 200, 800 — the result
is a 3-element sequence with prices sorted 200, 500, 800 and
selectedAirportCode BBB, the destination of the 200-priced offer. -/
theorem claim_C6_fault_isolation :
    (∀ provider q : Str → Option (List RawOffer), ∀ dests : List Str, ∀ d : Str,
      q d = none → (∀ e, e ≠ d → q e = provider e) →
      dests.map (destResult q) =
        dests.map (fun e => if e = d then [] else destResult provider e)) ∧
    (searchFlights ["AAA".data, "BBB".data] provC6).1.map (fun f => f.price) =
      [some 200, some 500, some 800] ∧
    (searchFlights ["AAA".data, "BBB".data] provC6).1.length = 3 ∧
    (searchFlights ["AAA".data, "BBB".data] provC6).1.map (fun f => f.destination) =
      ["BBB".data, "BBB".data, "BBB".data] ∧
    (searchFlights ["AAA".data, "BBB".data] provC6).2 = some "BBB".data := by
  refine ⟨?_, by decide, by decide, by decide, by decide⟩
  intro provider q dests d hqd hagree
  apply List.map_congr_left
  intro e _
  by_cases he : e = d
  · subst he
    rw [if_pos rfl]
    unfold destResult
    rw [hqd]
  · rw [if_neg he]
    unfold destResult
    rw [hagree e he]

/-- Claim C6 witness: the fault-isolation part applied to the concrete
provider of the scenario, with AAA as the failing destination. -/
theorem claim_C6_fault_isolation_witness :
    ["AAA".data, "BBB".data].map (destResult provC6) =
      ["AAA".data, "BBB".data].map
        (fun e => if e = "AAA".data then [] else destResult provC6 e) := by
  exact claim_C6_fault_isolation.1 provC6 provC6 ["AAA".data, "BBB".data]
    "AAA".data (by decide) (fun e _ => rfl)

/-- Concrete provider for the claim C9 counterexample: AAA returns one
offer priced exactly 0, BBB one offer priced Number.MAX_SAFE_INTEGER
(positive). -/
def provC9 : Str → Option (List RawOffer) := fun d =>
  if d = "AAA".data then some [⟨some 0, "zero".data⟩]
  else if d = "BBB".data then some [⟨some maxSafeInteger, "max".data⟩]
  else none

/-- Claim C9 counterexample: with a 0-priced offer for AAA and a
positively-priced offer (price Number.MAX_SAFE_INTEGER) for BBB, both
offers get the same sort key, the stable sort keeps the 0-priced offer
first, and it is selected — so a zero-priced offer neither sorts after
every positively-priced offer nor is barred from selection. -/
theorem claim_C9_counterexample :
    (searchFlights ["AAA".data, "BBB".data] provC9).1.map (fun f => f.price) =
      [some 0, some maxSafeInteger] ∧
    0 < maxSafeInteger ∧
    (searchFlights ["AAA".data, "BBB".data] provC9).2 = some "AAA".data := by
  decide

/-- Concrete provider for the claim C9 witness: AAA returns one offer
priced exactly 0, BBB one offer priced 100. -/
def provC9b : Str → Option (List RawOffer) := fun d =>
  if d = "AAA".data then some [⟨some 0, "zero".data⟩]
  else if d = "BBB".data then some [⟨some 100, "hund".data⟩]
  else none

/-- Claim C9, corrected.  A present price of exactly 0 is falsy in JS, so
it gets the same sort key as an absent price — Number.MAX_SAFE_INTEGER.
Amended: a zero-priced offer sorts after every offer whose price is
strictly between 0 and Number.MAX_SAFE_INTEGER (every offer placed after a
zero-priced one has key at least MAX_SAFE_INTEGER), and whenever such an
offer is present the first (selected) entry has neither price 0 nor an
absent price. -/
theorem claim_C9_zero_price :
    priceKey (some 0) = maxSafeInteger ∧
    priceKey none = maxSafeInteger ∧
    (∀ l l1 l2 : List FlightOption, ∀ a b : FlightOption,
      sortByPrice l = l1 ++ a :: l2 → a.price = some 0 → b ∈ l2 →
      maxSafeInteger ≤ priceKey b.price) ∧
    (∀ dests : List Str, ∀ provider : Str → Option (List RawOffer),
      ∀ b : FlightOption, b ∈ (searchFlights dests provider).1 →
      (∃ p : Nat, b.price = some p ∧ 0 < p ∧ p < maxSafeInteger) →
      ∀ f : FlightOption, ∀ rest : List FlightOption,
        (searchFlights dests provider).1 = f :: rest →
        f.price ≠ some 0 ∧ f.price ≠ none) := by
  refine ⟨rfl, rfl, ?_, ?_⟩
  · intro l l1 l2 a b hsort ha hb
    have hp := sortByPrice_pairwise l
    rw [hsort] at hp
    have hrel := (List.pairwise_append.mp hp).2.1
    have hab := (List.pairwise_cons.mp hrel).1 b hb
    have hka : priceKey a.price = maxSafeInteger := by rw [ha]; rfl
    rw [hka] at hab
    exact hab
  · intro dests provider b hb hpos f rest hcons
    obtain ⟨p, hbp, hp0, hpmax⟩ := hpos
    have hkb : priceKey b.price = p := by
      rw [hbp]
      simp [priceKey, Nat.pos_iff_ne_zero.mp hp0]
    have hp' := sortByPrice_pairwise (dests.map (destResult provider)).flatten
    have hp2 : (searchFlights dests provider).1.Pairwise
        (fun a b => priceKey a.price ≤ priceKey b.price) := hp'
    rw [hcons] at hp2 hb
    have hkf : priceKey f.price < maxSafeInteger := by
      rcases List.mem_cons.mp hb with rfl | hbr
      · rw [hkb]; exact hpmax
      · have := (List.pairwise_cons.mp hp2).1 b hbr
        rw [hkb] at this
        omega
    constructor
    · intro hf0
      rw [hf0] at hkf
      simp [priceKey] at hkf
    · intro hfnone
      rw [hfnone] at hkf
      simp [priceKey] at hkf

/-- Claim C9 witness: the amended theorem applied to the concrete
scenario of a 0-priced offer for AAA and a 100-priced offer for BBB: the
100-priced BBB offer sorts first and the selected head has neither a zero
nor an absent price. -/
theorem claim_C9_zero_price_witness :
    (⟨"BBB".data, some 100, "hund".data⟩ : FlightOption).price ≠ some 0 ∧
    (⟨"BBB".data, some 100, "hund".data⟩ : FlightOption).price ≠ none := by
  exact claim_C9_zero_price.2.2.2 ["AAA".data, "BBB".data] provC9b
    ⟨"BBB".data, some 100, "hund".data⟩ (by decide)
    ⟨100, rfl, by decide, by decide⟩
    ⟨"BBB".data, some 100, "hund".data⟩ [⟨"AAA".data, some 0, "zero".data⟩]
    (by decide)

/-- Claim C10, confirmed: the origin used for the flight searches is the
first element of the resolved source-airport list — insensitive to every
later element — or the raw source input when that list is empty; and every
issued per-destination request carries exactly that one origin as its
departure field, with the arrival fields enumerating the requested
destination codes. -/
theorem claim_C10_single_origin :
    (∀ source a : Str, ∀ rest rest2 : List Str,
      originAirportForSearch (a :: rest) source = a ∧
      originAirportForSearch (a :: rest) source =
        originAirportForSearch (a :: rest2) source) ∧
    (∀ source : Str, originAirportForSearch [] source = source) ∧
    (∀ origin : Str, ∀ dests : List Str,
      ∀ r ∈ flightRequests origin dests, r.1 = origin) ∧
    (∀ origin : Str, ∀ dests : List Str,
      (flightRequests origin dests).map Prod.snd = dests) := by
  refine ⟨fun _ _ _ _ => ⟨rfl, rfl⟩, fun _ => rfl, ?_, ?_⟩
  · intro origin dests r hr
    obtain ⟨d, _, rfl⟩ := List.mem_map.mp hr
    rfl
  · intro origin dests
    simp [flightRequests]

/-- Claim C10 witness: the origin selection and request shape at concrete
values — a two-element source list (only JFK, the head, is ever used) and
a concrete request list. -/
theorem claim_C10_single_origin_witness :
    originAirportForSearch ["JFK".data, "EWR".data] "New York".data = "JFK".data ∧
    (("JFK".data, "CDG".data) : Str × Str).1 = "JFK".data := by
  refine ⟨(claim_C10_single_origin.1 "New York".data "JFK".data
    ["EWR".data] []).1, ?_⟩
  exact claim_C10_single_origin.2.2.1 "JFK".data ["CDG".data, "ORY".data] _
    (by decide)

/-! ### Request handler (source lines 27-389) -/

/-- The request fields the handler logic branches on.  The date, budget,
traveler and interest fields flow only into prompt text, which no claim
observes, so they are not modelled. -/
structure RequestBody where
  source : Str
  destination : Str
  includeFlights : Bool
  deriving DecidableEq, Repr

/-- The success response body (source lines 365-373): each airport list is
null when empty, flightData is null when empty, selectedAirportCode and
the itinerary text are passed through. -/
structure ResponseBody where
  airportSource : Option (List Str)
  airportDestination : Option (List Str)
  selectedAirportCode : Option Str
  flightData : Option (List FlightOption)
  itinerary : Str
  deriving DecidableEq, Repr

/-- The two shapes a response can take: the assembled success body, or the
single structured error envelope with its human-readable message (the
body built at source lines 381-387). -/
inductive HandlerResult where
  | ok (body : ResponseBody)
  | err (message : Str)
  deriving DecidableEq, Repr

/-- JS truthiness of an optional environment string: absent and empty
are both falsy. -/
def truthyOptStr : Option Str → Bool
  | none => false
  | some s => !s.isEmpty

/-- The handler body (source lines 32-388) as a pure function of its
environment: the two credentials, the outcome of the (internally caught)
model airport lookup, the per-destination flight provider, and the
outcome of the itinerary generation call, whose error carries the status
text of the thrown AI Gateway error.  A falsy GEMINI_API_KEY throws at
line 40 before any upstream call; flights are searched only when
requested and the SERPAPI key is truthy (its absence only logs a warning);
the outer catch at lines 378-388 turns every throw into the single
structured error envelope. -/
def handle (geminiKey serpKey : Option Str) (lookup : Option AirportLookup)
    (provider : Str → Option (List RawOffer)) (itineraryCall : Except Str Str)
    (req : RequestBody) : HandlerResult :=
  if !truthyOptStr geminiKey then
    .err "GEMINI_API_KEY is not configured".data
  else
    let codes := resolveAirports req.source req.destination lookup
    let fl :=
      if req.includeFlights && truthyOptStr serpKey then
        searchFlights codes.2 provider
      else ([], none)
    match itineraryCall with
    | .error status => .err ("AI Gateway error: ".data ++ status)
    | .ok text =>
      .ok ⟨if codes.1 ≠ [] then some codes.1 else none,
           if codes.2 ≠ [] then some codes.2 else none,
           fl.2,
           if fl.1 ≠ [] then some fl.1 else none,
           text⟩

/-- Claim C8, confirmed: a falsy text-generation credential makes the
handler return the single structured configuration-error envelope, with a
result that is identical for any two upstream environments (nothing
upstream is consulted); a failed itinerary generation fails the whole
request with the single structured gateway-error envelope for every
lookup, provider and request — including ones where airport and flight
resolution succeeded; and every outcome is either the one success shape
or the one error envelope, never a mix of exception kinds. -/
theorem claim_C8_error_envelope :
    (∀ geminiKey serpKey : Option Str, ∀ lookup : Option AirportLookup,
      ∀ provider : Str → Option (List RawOffer), ∀ itineraryCall : Except Str Str,
      ∀ req : RequestBody,
      truthyOptStr geminiKey = false →
      handle geminiKey serpKey lookup provider itineraryCall req =
        .err "GEMINI_API_KEY is not configured".data) ∧
    (∀ geminiKey serpKey serpKey2 : Option Str,
      ∀ lookup lookup2 : Option AirportLookup,
      ∀ provider provider2 : Str → Option (List RawOffer),
      ∀ itineraryCall itineraryCall2 : Except Str Str,
      ∀ req req2 : RequestBody,
      truthyOptStr geminiKey = false →
      handle geminiKey serpKey lookup provider itineraryCall req =
        handle geminiKey serpKey2 lookup2 provider2 itineraryCall2 req2) ∧
    (∀ geminiKey serpKey : Option Str, ∀ lookup : Option AirportLookup,
      ∀ provider : Str → Option (List RawOffer), ∀ status : Str,
      ∀ req : RequestBody,
      truthyOptStr geminiKey = true →
      handle geminiKey serpKey lookup provider (Except.error status) req =
        .err ("AI Gateway error: ".data ++ status)) ∧
    (∀ geminiKey serpKey : Option Str, ∀ lookup : Option AirportLookup,
      ∀ provider : Str → Option (List RawOffer), ∀ itineraryCall : Except Str Str,
      ∀ req : RequestBody,
      (∃ m : Str, handle geminiKey serpKey lookup provider itineraryCall req =
        .err m) ∨
      (∃ b : ResponseBody,
        handle geminiKey serpKey lookup provider itineraryCall req = .ok b)) := by
  refine ⟨?_, ?_, ?_, ?_⟩
  · intro geminiKey serpKey lookup provider itineraryCall req h
    simp [handle, h]
  · intro geminiKey serpKey serpKey2 lookup lookup2 provider provider2
      itineraryCall itineraryCall2 req req2 h
    simp [handle, h]
  · intro geminiKey serpKey lookup provider status req h
    simp [handle, h]
  · intro geminiKey serpKey lookup provider itineraryCall req
    cases hh : handle geminiKey serpKey lookup provider itineraryCall req with
    | ok b => exact Or.inr ⟨b, rfl⟩
    | err m => exact Or.inl ⟨m, rfl⟩

/-- Claim C8 witness: the error-path theorem at concrete environments — an
absent credential with an otherwise healthy environment, and a present
credential with a failing itinerary call after successful airport and
flight stages. -/
theorem claim_C8_error_envelope_witness :
    handle none (some "sk".data) none (fun _ => none) (Except.ok "it".data)
        ⟨"Paris".data, "Rome".data, true⟩ =
      .err "GEMINI_API_KEY is not configured".data ∧
    handle (some "gk".data) (some "sk".data)
        (some ⟨JVal.varr ["JFK".data], JVal.varr ["CDG".data]⟩)
        (fun _ => some [⟨some 300, "of".data⟩]) (Except.error "500".data)
        ⟨"New York".data, "Paris".data, true⟩ =
      .err ("AI Gateway error: ".data ++ "500".data) := by
  exact ⟨claim_C8_error_envelope.1 none (some "sk".data) none _ _ _ (by decide),
    claim_C8_error_envelope.2.2.1 (some "gk".data) (some "sk".data)
      (some ⟨JVal.varr ["JFK".data], JVal.varr ["CDG".data]⟩) _ "500".data _
      (by decide)⟩

/-! ### Code-token extractor (extractIataCodesFromText, source lines 84-93) -/

/-- A regex word character: ASCII letter, digit or underscore.  The word
boundaries of the match pattern sit exactly at the edges of maximal runs
of these characters. -/
def isWordChar (c : Char) : Bool := c.isAlphanum || c == '_'

/-- Maximal runs of word characters, in text order; the accumulator holds
the current run reversed. -/
def wordRunsAux : Str → Str → List Str
  | [], acc => if acc.isEmpty then [] else [acc.reverse]
  | c :: rest, acc =>
    if isWordChar c then wordRunsAux rest (c :: acc)
    else if acc.isEmpty then wordRunsAux rest []
    else acc.reverse :: wordRunsAux rest []

/-- The maximal word runs of a text. -/
def wordRuns (s : Str) : List Str := wordRunsAux s []

/-- The global matches of the pattern word-boundary, three letters,
word-boundary (source line 87): exactly the maximal word runs consisting
of three alphabetic characters, in text order. -/
def regexMatches (s : Str) : List Str := (wordRuns s).filter isIataShape

/-- Array.from(new Set(xs)) at source line 90: deduplication preserving
first-seen order. -/
def dedupe (l : List Str) : List Str :=
  l.foldl (fun acc x => if x ∈ acc then acc else acc ++ [x]) []

/-- extractIataCodesFromText (source lines 84-93): collect the 3-letter
word-boundary matches, uppercase each, deduplicate preserving first-seen
order, then keep only tokens of exactly three uppercase letters (the
defensive final filter of line 92). -/
def extractIataCodesFromText (s : Str) : List Str :=
  (dedupe ((regexMatches s).map strUpper)).filter isUpperCode

/-- Elements of the deduplication all come from the input list. -/
theorem dedupe_fold_mem (l acc : List Str) (x : Str)
    (hx : x ∈ l.foldl (fun a y => if y ∈ a then a else a ++ [y]) acc) :
    x ∈ acc ∨ x ∈ l := by
  induction l generalizing acc with
  | nil => exact Or.inl hx
  | cons y ys ih =>
    simp only [List.foldl_cons] at hx
    rcases ih _ hx with h | h
    · by_cases hy : y ∈ acc
      · rw [if_pos hy] at h
        exact Or.inl h
      · rw [if_neg hy] at h
        rcases List.mem_append.mp h with h2 | h2
        · exact Or.inl h2
        · simp only [List.mem_singleton] at h2
          subst h2
          exact Or.inr (by simp)
    · exact Or.inr (List.mem_cons_of_mem _ h)

/-- The deduplication never repeats an element. -/
theorem dedupe_fold_nodup (l acc : List Str) (hacc : acc.Nodup) :
    (l.foldl (fun a y => if y ∈ a then a else a ++ [y]) acc).Nodup := by
  induction l generalizing acc with
  | nil => exact hacc
  | cons y ys ih =>
    simp only [List.foldl_cons]
    by_cases hy : y ∈ acc
    · rw [if_pos hy]
      exact ih _ hacc
    · rw [if_neg hy]
      refine ih _ ?_
      simp [List.nodup_append, hacc, hy]

/-- Claim C4 counterexample: on the claimed input the extractor does not
yield NYC, CDG, LAX — the match pattern is three alphabetic characters
between word boundaries, so the ordinary words Fly, the and hub match
too, and each survives uppercasing and the final uppercase filter.  The
actual output is FLY, NYC, THE, CDG, HUB, LAX. -/
theorem claim_C4_counterexample :
    extractIataCodesFromText
        "Fly from NYC to the CDG hub, LAX also possible".data ≠
      ["NYC".data, "CDG".data, "LAX".data] := by
  decide

/-- Claim C4, corrected in its concrete example.  The extractor finds all
maximal 3-alphabetic-character word-boundary-delimited runs
case-insensitively, uppercases each, deduplicates preserving first-seen
order, and keeps only 3-uppercase-letter tokens; but on the input of the
claim this yields FLY, NYC, THE, CDG, HUB, LAX — every 3-letter word
matches, not only code-like ones.  In general the output is the
first-seen-order deduplication of the uppercased matches — the defensive
final filter never removes anything, since an uppercased 3-letter
alphabetic match is always three uppercase letters — and the output never
repeats a token. -/
theorem claim_C4_token_extraction :
    extractIataCodesFromText
        "Fly from NYC to the CDG hub, LAX also possible".data =
      ["FLY".data, "NYC".data, "THE".data, "CDG".data, "HUB".data,
        "LAX".data] ∧
    (∀ s : Str,
      extractIataCodesFromText s = dedupe ((regexMatches s).map strUpper)) ∧
    (∀ s : Str, (extractIataCodesFromText s).Nodup) := by
  have hnoop : ∀ s : Str,
      extractIataCodesFromText s = dedupe ((regexMatches s).map strUpper) := by
    intro s
    unfold extractIataCodesFromText
    refine List.filter_eq_self.mpr ?_
    intro a ha
    rcases dedupe_fold_mem _ _ _ ha with h | h
    · exact absurd h (by simp)
    · obtain ⟨r, hr, rfl⟩ := List.mem_map.mp h
      exact isUpperCode_strUpper r (List.of_mem_filter hr)
  refine ⟨by decide, hnoop, ?_⟩
  intro s
  rw [hnoop s]
  exact dedupe_fold_nodup _ _ List.nodup_nil

end TravelPlanner
